import Mathlib

/-!
Verification development for the smtp-tg-relay repository
(`src/smtp_server.py`): a shallow embedding, in Lean 4, of the
message-content extraction and delivery-formatting pipeline, together with
theorems settling the specification claims about it.

Modelling conventions:
* Python strings are modelled as `List Char` (`Text` below); `len`, slicing
  and concatenation become list length, `take`/`drop` and append.
* `Optional[str]` becomes `Option Text`; Python truthiness of a string
  (`if not text`, `a or b`) is modelled explicitly via emptiness tests.
* Byte payloads are `List Nat`.
* The outbound Telegram transport is modelled by a trace of `TgCall`s.
  Each trace element records whether the call was issued through the
  bounded retry wrapper `_execute_with_retry` (`viaRetry := true`) or by
  calling the bot directly (`viaRetry := false`).  The trace semantics of
  `send_to_telegram` below is the one in which every transport call
  succeeds (the happy path); the retry wrapper itself is modelled
  separately with explicit per-attempt outcomes.
-/

/-- Python `str` as a list of characters. -/
abbrev Text := List Char

/-- The apostrophe character, written via its code point. -/
def apostropheChar : Char := Char.ofNat 39

/-- Python `a or b` on optional strings: `a` unless it is `None` or empty,
else `b`.  Used for the body fallback chain in `send_to_telegram`. -/
def pyOrText (a b : Option Text) : Option Text :=
  match a with
  | some s => if s.isEmpty then b else some s
  | none => b

/-- One character of Python `html.escape(text)` (quote mode, the default):
`&`, `<`, `>`, the double quote and the apostrophe become entities. -/
def escapeChar (c : Char) : List Char :=
  if c = '&' then "&amp;".data
  else if c = '<' then "&lt;".data
  else if c = '>' then "&gt;".data
  else if c = '"' then "&quot;".data
  else if c = apostropheChar then "&#x27;".data
  else [c]

/-- `CustomSMTPHandler._sanitize_text`: empty for `None`/empty input, else
`html.escape(text)`.  Escaping character by character agrees with the
sequential `str.replace` passes of `html.escape` because the replacement
texts themselves are never re-escaped after the leading `&` pass. -/
def sanitize_text (t : Option Text) : Text :=
  match t with
  | none => []
  | some s => if s.isEmpty then [] else s.flatMap escapeChar

/-- `CustomSMTPHandler._truncate_text`: empty for `None`/empty input; text
longer than `max_length` becomes the first `max_length - 3` characters
followed by an ellipsis `...`; otherwise the text unchanged. -/
def truncate_text (t : Option Text) (max_length : Nat) : Text :=
  match t with
  | none => []
  | some s =>
    if s.isEmpty then []
    else if max_length < s.length then s.take (max_length - 3) ++ "...".data
    else s

/-- Chunking worker for `_split_text`: chunks of size `k + 1`, taken from
the front.  The fuel argument (instantiated with the text length) only
serves structural termination; it never runs out on the real call. -/
def splitChunksGo : Nat → Text → Nat → List Text
  | 0, _, _ => []
  | _, [], _ => []
  | fuel + 1, c :: rest, k => ((c :: rest).take (k + 1)) :: splitChunksGo fuel (rest.drop k) k

/-- `CustomSMTPHandler._split_text`: positional chunks of length
`max_length` (`[text[i:i+n] for i in range(0, len(text), n)]`); the empty
text yields no chunks.  Python raises `ValueError` for `max_length = 0`
(zero `range` step); the claims only concern positive chunk lengths, and
we return `[]` there. -/
def split_text (t : Text) (max_length : Nat) : List Text :=
  match max_length with
  | 0 => []
  | k + 1 => splitChunksGo t.length t k

/-- `CustomSMTPHandler._build_message_text`: sanitize subject and body;
join with a newline when both are non-empty, else return whichever is
non-empty (`subject_text or body_text`). -/
def build_message_text (subject body : Option Text) : Text :=
  let subject_text := sanitize_text subject
  let body_text := sanitize_text body
  if ¬subject_text.isEmpty ∧ ¬body_text.isEmpty then subject_text ++ '\n' :: body_text
  else if ¬subject_text.isEmpty then subject_text
  else body_text

/-! ### Attachments and media classification -/

/-- An entry of `parsed_email["attachments"]`, restricted to the fields the
delivery pipeline reads: `filename`, `content_type`, `content` and the
`generated_html` marker set by `_process_html_content` (absent, i.e.
`false`, on regular attachments). -/
structure Attachment where
  filename : Text
  content_type : Text
  content : List Nat
  generated_html : Bool
deriving DecidableEq

/-- The Telegram media categories used by `_prepare_media_files`. -/
inductive MediaType where
  | photo
  | video
  | audio
  | animation
  | document
deriving DecidableEq

/-- Python `str.lower`, character-wise (all content types in play are
ASCII). -/
def pyLower (s : Text) : Text := s.map Char.toLower

/-- The `MEDIA_TYPES` table of `_prepare_media_files`, in dict insertion
order (Python 3.7+ dicts iterate in insertion order). -/
def MEDIA_TYPES : List (MediaType × List Text) :=
  [(MediaType.animation, ["image/gif".data]),
   (MediaType.photo, ["image/".data, "application/png".data, "application/jpg".data,
                      "application/jpeg".data]),
   (MediaType.video, ["video/".data, "application/mp4".data, "application/mpeg".data]),
   (MediaType.audio, ["audio/".data, "application/ogg".data, "application/mp3".data,
                      "application/wav".data])]

/-- The classification loop of `_prepare_media_files`: first table entry
whose prefix set matches (`content_type.startswith(mime_type)`) wins;
anything unmatched is a `document`. -/
def mediaTypeFor (content_type : Text) : MediaType :=
  match MEDIA_TYPES.find? (fun p => p.2.any (fun m => m.isPrefixOf content_type)) with
  | some p => p.1
  | none => MediaType.document

/-- `_prepare_media_files`, as the list of files landing in category `t`
(preserving input order).  Attachments with empty content are skipped (the
source skips them twice, once via `if not attachment['content']` and once
via the zero-size check; both reduce to this one test). -/
def prepare_media_files : List Attachment → MediaType → List Attachment
  | [], _ => []
  | a :: rest, t =>
    if a.content.isEmpty then prepare_media_files rest t
    else if mediaTypeFor (pyLower a.content_type) = t then a :: prepare_media_files rest t
    else prepare_media_files rest t

/-- Iteration order of `media_files.items()` in `send_to_telegram`: the
insertion order of the `media_files` dict. -/
def media_files_order : List MediaType :=
  [MediaType.photo, MediaType.video, MediaType.audio, MediaType.animation, MediaType.document]

/-- `non_empty_types` in `send_to_telegram`: the categories (with their
files) that received at least one file, in dict order. -/
def non_empty_types (regular : List Attachment) : List (MediaType × List Attachment) :=
  (media_files_order.map (fun t => (t, prepare_media_files regular t))).filter
    (fun p => !p.2.isEmpty)

/-! ### Basic lemmas about the text utilities -/

theorem splitChunksGo_flatten (k : Nat) :
    ∀ (fuel : Nat) (t : Text), t.length ≤ fuel → (splitChunksGo fuel t k).flatten = t := by
  intro fuel
  induction fuel with
  | zero =>
    intro t ht
    have : t = [] := List.eq_nil_of_length_eq_zero (Nat.le_zero.mp ht)
    subst this
    simp [splitChunksGo]
  | succ n ih =>
    intro t ht
    match t with
    | [] => simp [splitChunksGo]
    | c :: rest =>
      have hlen : (rest.drop k).length ≤ n := by
        have h1 : (rest.drop k).length ≤ rest.length := by
          simp [List.length_drop]
        have h2 : rest.length ≤ n := by
          simpa using Nat.succ_le_succ_iff.mp ht
        exact Nat.le_trans h1 h2
      calc (splitChunksGo (n + 1) (c :: rest) k).flatten
          = (c :: rest).take (k + 1) ++ (splitChunksGo n (rest.drop k) k).flatten := by
            simp [splitChunksGo]
        _ = (c :: rest).take (k + 1) ++ rest.drop k := by rw [ih _ hlen]
        _ = c :: (rest.take k ++ rest.drop k) := by simp [List.take_succ_cons]
        _ = c :: rest := by rw [List.take_append_drop]

theorem splitChunksGo_eq_nil (k fuel : Nat) (t : Text) (ht : t.length ≤ fuel) :
    splitChunksGo fuel t k = [] ↔ t = [] := by
  match fuel, t with
  | 0, t =>
    have : t = [] := List.eq_nil_of_length_eq_zero (Nat.le_zero.mp ht)
    subst this
    simp [splitChunksGo]
  | n + 1, [] => simp [splitChunksGo]
  | n + 1, c :: rest => simp [splitChunksGo]

theorem mem_dropLast_cons_of_ne_nil {α : Type} {x : α} {a : α} {l : List α}
    (hx : x ∈ (a :: l).dropLast) (hl : l ≠ []) :
    x = a ∨ x ∈ l.dropLast := by
  match l with
  | [] => exact absurd rfl hl
  | b :: l' =>
    rw [List.dropLast_cons₂] at hx
    rcases List.mem_cons.mp hx with h | h
    · exact Or.inl h
    · exact Or.inr h

theorem splitChunksGo_dropLast_length (k : Nat) :
    ∀ (fuel : Nat) (t : Text), t.length ≤ fuel →
      ∀ chunk ∈ (splitChunksGo fuel t k).dropLast, chunk.length = k + 1 := by
  intro fuel
  induction fuel with
  | zero =>
    intro t ht chunk hc
    simp [splitChunksGo] at hc
  | succ n ih =>
    intro t ht chunk hc
    match t with
    | [] => simp [splitChunksGo] at hc
    | c :: rest =>
      have hrest : rest.length ≤ n := by simpa using Nat.succ_le_succ_iff.mp ht
      have hlen : (rest.drop k).length ≤ n := by
        have h1 : (rest.drop k).length ≤ rest.length := by simp [List.length_drop]
        exact Nat.le_trans h1 hrest
      simp only [splitChunksGo] at hc
      by_cases hnil : splitChunksGo n (rest.drop k) k = []
      · rw [hnil] at hc
        simp at hc
      · have hmem : chunk = (c :: rest).take (k + 1) ∨
            chunk ∈ (splitChunksGo n (rest.drop k) k).dropLast := by
          rcases mem_dropLast_cons_of_ne_nil hc hnil with h | h
          · exact Or.inl h
          · exact Or.inr h
        rcases hmem with h | h
        · subst h
          have hdrop : rest.drop k ≠ [] := by
            intro hdropnil
            exact hnil ((splitChunksGo_eq_nil k n (rest.drop k) hlen).mpr hdropnil)
          have hklt : k < rest.length := by
            by_contra hk
            push_neg at hk
            exact hdrop (List.drop_eq_nil_of_le hk)
          simp [List.length_take]
          omega
        · exact ih (rest.drop k) hlen chunk h

/-! ### Recipient resolution (`LocalRecipient.parse`,
`_resolve_local_recipient`) -/

/-- Python `s.split(sep)`: splits on every occurrence of `sep`, keeping
empty pieces; the empty string yields one empty piece. -/
def pySplit (sep : Char) : Text → List Text
  | [] => [[]]
  | c :: rest =>
    match pySplit sep rest with
    | [] => [[]]
    | h :: t => if c = sep then [] :: h :: t else (c :: h) :: t

/-- Python `s.split(sep, 1)` when `sep` occurs: the piece before the first
occurrence and everything after it; `none` when `sep` does not occur
(models the `if sep in s` guard plus the one-shot split together). -/
def pySplitOnce (sep : Char) : Text → Option (Text × Text)
  | [] => none
  | c :: rest =>
    if c = sep then some ([], rest)
    else
      match pySplitOnce sep rest with
      | some (before, after) => some (c :: before, after)
      | none => none

/-- Python `s.lstrip("id")`: removes the longest leading run of characters
drawn from the set of the characters i and d (not merely one literal
`id` prefix). -/
def lstrip_id (s : Text) : Text := s.dropWhile (fun c => c = 'i' || c = 'd')

/-- The `LocalRecipient` dataclass. -/
structure LocalRecipient where
  chat_id : Text
  message_thread_id : Option Text
  silent : Bool
deriving DecidableEq

/-- `LocalRecipient.parse`: strip a dot-separated flag suffix, split the
remaining name on the exclamation mark (falling back to the underscore
when that yields a single piece), then one piece means a bare chat id
(with `lstrip("id")` applied) and two pieces mean chat id plus thread id;
any other piece count fails.  `silent` holds iff the flag set contains
`s` or `silent`. -/
def LocalRecipient.parse (local_name : Text) : Option LocalRecipient :=
  if local_name.isEmpty then none
  else
    let nameFlags :=
      match pySplitOnce '.' local_name with
      | some (before, after) => (before, pySplit '.' after)
      | none => (local_name, ([] : List Text))
    let name := nameFlags.1
    let flags := nameFlags.2
    let parts0 := pySplit '!' name
    let parts := if parts0.length = 1 then pySplit '_' name else parts0
    let silentFlag := flags.contains "s".data || flags.contains "silent".data
    match parts with
    | [p] => some { chat_id := lstrip_id p, message_thread_id := none, silent := silentFlag }
    | [p, q] =>
      some { chat_id := lstrip_id p, message_thread_id := some q, silent := silentFlag }
    | _ => none

/-- `CustomSMTPHandler._resolve_local_recipient`: an alias map (the
`recipient_aliases` dict, modelled as an association list) is applied to
the part of the local name before the first dot, the original flag suffix
is re-appended, and the result is parsed. -/
def resolve_local_recipient (aliases : List (Text × Text)) (local_name : Text) :
    Option LocalRecipient :=
  if local_name.isEmpty then none
  else
    let rawSuffix :=
      match pySplitOnce '.' local_name with
      | some (before, after) => (before, '.' :: after)
      | none => (local_name, ([] : Text))
    let raw_local_name := rawSuffix.1
    let flag_suffix := rawSuffix.2
    let canonical := ((aliases.lookup raw_local_name).getD raw_local_name)
    LocalRecipient.parse (canonical ++ flag_suffix)

/-! ### The retry wrapper (`_execute_with_retry`) -/

/-- `self._telegram_retry_attempts`. -/
def telegramRetryAttempts : Nat := 3

/-- Outcome of one invocation of the wrapped transport action: success, a
`RetryAfter` rate-limit signal carrying its wait time, or any other
`TelegramError`. -/
inductive AttemptOutcome where
  | ok
  | rateLimited (retry_after : Nat)
  | transientError
deriving DecidableEq

/-- What `_execute_with_retry` does: how many times the action was
invoked, and whether an error escaped to the caller. -/
structure RetryResult where
  invocations : Nat
  raised : Bool
deriving DecidableEq

/-- The `for attempt in range(1, attempts + 1)` loop of
`_execute_with_retry`, over the list of remaining attempt numbers.  The
behaviour of the (possibly nondeterministic) real-world action is given
as a map from attempt number to outcome.  On success the loop returns;
on `RetryAfter` it sleeps and continues (falling off the end of the loop
returns silently); on any other `TelegramError` it re-raises when the
attempt number has reached the budget, else sleeps with exponential
backoff and continues. -/
def retryLoop (action : Nat → AttemptOutcome) (maxAttempts : Nat) : List Nat → RetryResult
  | [] => { invocations := 0, raised := false }
  | attempt :: rest =>
    match action attempt with
    | AttemptOutcome.ok => { invocations := 1, raised := false }
    | AttemptOutcome.rateLimited _ =>
      let r := retryLoop action maxAttempts rest
      { invocations := r.invocations + 1, raised := r.raised }
    | AttemptOutcome.transientError =>
      if maxAttempts ≤ attempt then { invocations := 1, raised := true }
      else
        let r := retryLoop action maxAttempts rest
        { invocations := r.invocations + 1, raised := r.raised }

/-- `CustomSMTPHandler._execute_with_retry` with the configured attempt
budget of 3. -/
def execute_with_retry (action : Nat → AttemptOutcome) : RetryResult :=
  retryLoop action telegramRetryAttempts (List.range' 1 telegramRetryAttempts)

/-! ### The delivery pipeline (`send_to_telegram` and its helpers),
modelled as a trace of transport calls -/

/-- One outbound Telegram API call, identified by operation, the filenames
of the media it carries and its caption/text. -/
inductive TgCall where
  | sendMessage (text : Text)
  | sendPhoto (filename : Text) (caption : Option Text)
  | sendVideo (filename : Text) (caption : Option Text)
  | sendAudio (filename : Text) (caption : Option Text)
  | sendAnimation (filename : Text) (caption : Option Text)
  | sendDocument (filename : Text) (caption : Option Text)
  | sendMediaGroup (media_type : MediaType) (filenames : List Text) (caption : Option Text)
deriving DecidableEq

/-- A transport call together with how it was issued: through
`_execute_with_retry` (`viaRetry := true`) or by awaiting the bot
directly (`viaRetry := false`). -/
structure CallRec where
  call : TgCall
  viaRetry : Bool
deriving DecidableEq

/-- The `message_dict` read by `send_to_telegram` (`dict.get` of a missing
key yields `None`, hence every field is optional). -/
structure MessageDict where
  subject : Option Text
  text_body : Option Text
  html_body : Option Text
  plain_from_html : Option Text
  attachments : List Attachment
deriving DecidableEq

/-- `body = text_body or plain_from_html or html_body` in
`send_to_telegram`. -/
def message_body (m : MessageDict) : Option Text :=
  pyOrText m.text_body (pyOrText m.plain_from_html m.html_body)

/-- `text = self._build_message_text(subject, body)`. -/
def message_text (m : MessageDict) : Text :=
  build_message_text m.subject (message_body m)

/-- `needs_full_text_message = len(text) > 1024`. -/
def needs_full_text_message (m : MessageDict) : Bool :=
  decide (1024 < (message_text m).length)

/-- `caption_text = (truncated if needs_full_text_message else text) or
None`. -/
def caption_text (m : MessageDict) : Option Text :=
  let c :=
    if needs_full_text_message m then truncate_text (some (message_text m)) 1024
    else message_text m
  if c.isEmpty then none else some c

/-- The attachments carrying the `generated_html` marker. -/
def generated_html_attachments (m : MessageDict) : List Attachment :=
  m.attachments.filter (fun a => a.generated_html)

/-- The attachments without the `generated_html` marker. -/
def regular_attachments (m : MessageDict) : List Attachment :=
  m.attachments.filter (fun a => !a.generated_html)

/-- `CustomSMTPHandler._send_text_messages`: the text is split at the
4096-character Telegram limit and each chunk is sent through the retry
wrapper. -/
def send_text_messages (text : Text) : List CallRec :=
  (split_text text 4096).map (fun chunk => { call := TgCall.sendMessage chunk, viaRetry := true })

/-- The per-category dispatch inside `_send_media`. -/
def mediaCall (t : MediaType) (f : Attachment) (caption : Option Text) : TgCall :=
  match t with
  | MediaType.photo => TgCall.sendPhoto f.filename caption
  | MediaType.video => TgCall.sendVideo f.filename caption
  | MediaType.audio => TgCall.sendAudio f.filename caption
  | MediaType.animation => TgCall.sendAnimation f.filename caption
  | MediaType.document => TgCall.sendDocument f.filename caption

/-- `CustomSMTPHandler._send_media` under the happy-path transport: one
call through the retry wrapper, reporting success. -/
def send_media (t : MediaType) (f : Attachment) (caption : Option Text) :
    List CallRec × Bool :=
  ([{ call := mediaCall t f caption, viaRetry := true }], true)

/-- `CustomSMTPHandler._send_files_individually`: each file is sent via
`_send_media` with no caption; success only if every send succeeded. -/
def send_files_individually (t : MediaType) : List Attachment → List CallRec × Bool
  | [] => ([], true)
  | f :: rest =>
    let r := send_media t f none
    let rr := send_files_individually t rest
    (r.1 ++ rr.1, r.2 && rr.2)

/-- `CustomSMTPHandler._send_media_group`: photo, video and document
groups are sent as one `send_media_group` call through the retry wrapper;
for every other category the method returns `False` at once — no
transport call is attempted and (since no exception was raised) the
individual-send fallback in its `except` clause is not reached. -/
def send_media_group (t : MediaType) (files : List Attachment) : List CallRec × Bool :=
  match t with
  | MediaType.photo =>
    ([{ call := TgCall.sendMediaGroup MediaType.photo (files.map (fun f => f.filename)) none,
        viaRetry := true }], true)
  | MediaType.video =>
    ([{ call := TgCall.sendMediaGroup MediaType.video (files.map (fun f => f.filename)) none,
        viaRetry := true }], true)
  | MediaType.document =>
    ([{ call := TgCall.sendMediaGroup MediaType.document (files.map (fun f => f.filename)) none,
        viaRetry := true }], true)
  | _ => ([], false)

/-- `CustomSMTPHandler._send_media_group_with_text`: photo, video and
document groups carry the text as the caption of the first item; for
other categories the text is sent as a separate message and the group is
delegated to `_send_media_group`.  The `except` fallback (standalone text
plus individual sends) is unreachable under the happy-path transport. -/
def send_media_group_with_text (t : MediaType) (files : List Attachment) (text : Text) :
    List CallRec × Bool :=
  match t with
  | MediaType.photo =>
    ([{ call := TgCall.sendMediaGroup MediaType.photo (files.map (fun f => f.filename))
          (some text), viaRetry := true }], true)
  | MediaType.video =>
    ([{ call := TgCall.sendMediaGroup MediaType.video (files.map (fun f => f.filename))
          (some text), viaRetry := true }], true)
  | MediaType.document =>
    ([{ call := TgCall.sendMediaGroup MediaType.document (files.map (fun f => f.filename))
          (some text), viaRetry := true }], true)
  | _ =>
    let r := send_media_group t files
    ({ call := TgCall.sendMessage text, viaRetry := true } :: r.1, r.2)

/-- The branch of `send_to_telegram` taken when there are attachments but
no regular ones: the text (when non-empty) is sent in chunks, then every
generated-HTML attachment is sent as a caption-less document by awaiting
`self.bot.send_document` directly — not through the retry wrapper. -/
def send_no_regular (m : MessageDict) : List CallRec × Bool :=
  let text := message_text m
  let textCalls := if text.isEmpty then [] else send_text_messages text
  (textCalls ++
    (generated_html_attachments m).map
      (fun a => { call := TgCall.sendDocument a.filename none, viaRetry := false }),
   true)

/-- The single-non-empty-category branch of `send_to_telegram`: one file is
sent via `_send_media` with the caption text; several audio/animation
files are sent as first-with-caption plus the rest individually; several
groupable files go through `_send_media_group_with_text` with
`caption_text or ""`.  The empty-file-list case cannot arise (the
category came from `non_empty_types`); Python would raise there, caught
by the surrounding handler which returns `False`. -/
def send_single_category (m : MessageDict) (t : MediaType) (files : List Attachment) :
    List CallRec × Bool :=
  match files with
  | [f] => send_media t f (caption_text m)
  | f :: rest =>
    if t = MediaType.audio ∨ t = MediaType.animation then
      let firstR :=
        match caption_text m with
        | some c => send_media t f (some c)
        | none => send_media t f none
      let restR := if rest.isEmpty then (([] : List CallRec), true)
                   else send_files_individually t rest
      (firstR.1 ++ restR.1, firstR.2 && restR.2)
    else send_media_group_with_text t files ((caption_text m).getD [])
  | [] => ([], false)

/-- The several-categories branch of `send_to_telegram`: the text is sent
as one standalone message when it is non-empty and was not already sent
via the long-text path; then each non-empty category goes through
`_send_media_group` with its result discarded; then each generated-HTML
attachment is sent as a caption-less document by awaiting the bot
directly.  The branch always reports success. -/
def send_multi_category (m : MessageDict) : List CallRec × Bool :=
  let text := message_text m
  let textCall :=
    if !needs_full_text_message m && !text.isEmpty then
      [{ call := TgCall.sendMessage text, viaRetry := true }]
    else []
  let groupCalls :=
    media_files_order.flatMap (fun t =>
      let fs := prepare_media_files (regular_attachments m) t
      if fs.isEmpty then [] else (send_media_group t fs).1)
  let genCalls :=
    (generated_html_attachments m).map
      (fun a => { call := TgCall.sendDocument a.filename none, viaRetry := false })
  (textCall ++ groupCalls ++ genCalls, true)

/-- The `len(non_empty_types) == 1` test of `send_to_telegram`, factored
out so the two regular-attachment branches can be reasoned about
separately. -/
def dispatch_regular (m : MessageDict) :
    List (MediaType × List Attachment) → List CallRec × Bool
  | [(t, files)] => send_single_category m t files
  | _ => send_multi_category m

/-- `CustomSMTPHandler.send_to_telegram` under the happy-path transport,
as the ordered trace of transport calls it issues together with its
boolean result. -/
def send_to_telegram (m : MessageDict) : List CallRec × Bool :=
  if m.attachments.isEmpty then (send_text_messages (message_text m), true)
  else if (regular_attachments m).isEmpty then send_no_regular m
  else
    let pre :=
      if needs_full_text_message m && !(message_text m).isEmpty then
        send_text_messages (message_text m)
      else []
    let r := dispatch_regular m (non_empty_types (regular_attachments m))
    (pre ++ r.1, r.2)

/-- The fields of `parsed_email` produced by `extract_message_content`
that `handle_DATA` consumes when it builds `message_dict`. -/
structure ParsedEmail where
  subject : Text
  text_body : Option Text
  html_body : Option Text
  plain_from_html : Option Text
  attachments : List Attachment
deriving DecidableEq

/-- The `message_dict` literal of `handle_DATA` (source lines 980 to 993):
it copies `subject`, `text_body`, `html_body` and `attachments` from
`parsed_email` but carries no `plain_from_html` key, so
`message_dict.get` of that key inside `send_to_telegram` yields `None`
even when `extract_message_content` produced a converted text. -/
def handle_data_message_dict (p : ParsedEmail) : MessageDict :=
  { subject := some p.subject
    text_body := p.text_body
    html_body := p.html_body
    plain_from_html := none
    attachments := p.attachments }

/-! ### The HTML-to-text converter (`_HTMLToTextParser`)

The tokenisation of markup into start-tag/end-tag/data events is done by
the Python standard library `HTMLParser` (an external collaborator); the
repository code is the event handler built on top of it.  We therefore
embed the handler as a fold over the event stream, and state concrete
facts at the event streams the standard tokeniser produces for the inputs
in question.  Note that for `style` and `script` elements the standard
tokeniser delivers the raw element content through `handle_data` exactly
like ordinary character data. -/

/-- A markup event as delivered by the standard tokeniser to
`_HTMLToTextParser`. -/
inductive HtmlEvent where
  | startTag (tag : Text) (attrs : List (Text × Text))
  | endTag (tag : Text)
  | data (s : Text)
deriving DecidableEq

/-- `_HTMLToTextParser.BLOCK_TAGS`. -/
def BLOCK_TAGS : List Text :=
  ["p".data, "div".data, "br".data, "li".data, "tr".data, "table".data, "section".data]

/-- The mutable state of `_HTMLToTextParser`: the accumulated `parts`
fragments and the currently open anchor (`href` and captured text). -/
structure HtmlParserState where
  parts : List Text
  currentLink : Option (Text × Text)
deriving DecidableEq

/-- Python `dict(attrs).get("href", "")`: the value of the last `href`
entry (later duplicate keys overwrite earlier ones), or empty. -/
def attrsHref (attrs : List (Text × Text)) : Text :=
  ((attrs.reverse.lookup "href".data).getD [])

/-- Python `str.strip()` (whitespace from both ends). -/
def pyStrip (s : Text) : Text :=
  ((s.dropWhile Char.isWhitespace).reverse.dropWhile Char.isWhitespace).reverse

/-- Python `needle in hay` on strings: contiguous-substring test. -/
def listContainsSub (needle hay : Text) : Bool :=
  match hay with
  | [] => needle.isEmpty
  | _ :: rest => needle.isPrefixOf hay || listContainsSub needle rest

/-- `_HTMLToTextParser._append_break`: append a newline fragment unless the
last fragment already is one. -/
def appendBreak (s : HtmlParserState) : HtmlParserState :=
  match s.parts.getLast? with
  | none => { s with parts := s.parts ++ [['\n']] }
  | some last =>
    if last = ['\n'] then s else { s with parts := s.parts ++ [['\n']] }

/-- `_HTMLToTextParser.handle_starttag`. -/
def handle_starttag (s : HtmlParserState) (tag : Text) (attrs : List (Text × Text)) :
    HtmlParserState :=
  let s1 := if BLOCK_TAGS.contains tag then appendBreak s else s
  if tag = "a".data then { s1 with currentLink := some (attrsHref attrs, []) } else s1

/-- `_HTMLToTextParser.handle_endtag`. -/
def handle_endtag (s : HtmlParserState) (tag : Text) : HtmlParserState :=
  let s1 := if BLOCK_TAGS.contains tag then appendBreak s else s
  if tag = "a".data then
    match s1.currentLink with
    | some link =>
      let href := pyStrip link.1
      let text := pyStrip link.2
      let s2 :=
        if ¬href.isEmpty ∧ listContainsSub href text = false then
          { s1 with parts := s1.parts ++ [' ' :: '(' :: (href ++ [')'])] }
        else s1
      { s2 with currentLink := none }
    | none => s1
  else s1

/-- `_HTMLToTextParser.handle_data`: character data is appended to `parts`
unconditionally (in particular also while inside `style` or `script`
elements) and additionally accumulated into an open anchor. -/
def handle_data (s : HtmlParserState) (d : Text) : HtmlParserState :=
  if d.isEmpty then s
  else
    let s1 := { s with parts := s.parts ++ [d] }
    match s1.currentLink with
    | some link => { s1 with currentLink := some (link.1, link.2 ++ d) }
    | none => s1

/-- Worker for the entity decoding pass, with a structural fuel argument
(instantiated with the text length, which always suffices). -/
def htmlUnescapeGo : Nat → Text → Text
  | 0, s => s
  | _, [] => []
  | fuel + 1, c :: rest =>
    if c = '&' then
      if ("amp;".data).isPrefixOf rest then '&' :: htmlUnescapeGo fuel (rest.drop 4)
      else if ("lt;".data).isPrefixOf rest then '<' :: htmlUnescapeGo fuel (rest.drop 3)
      else if ("gt;".data).isPrefixOf rest then '>' :: htmlUnescapeGo fuel (rest.drop 3)
      else if ("quot;".data).isPrefixOf rest then '"' :: htmlUnescapeGo fuel (rest.drop 5)
      else if ("#x27;".data).isPrefixOf rest then
        apostropheChar :: htmlUnescapeGo fuel (rest.drop 5)
      else c :: htmlUnescapeGo fuel rest
    else c :: htmlUnescapeGo fuel rest

/-- Python `html.unescape`, restricted to the five standard entities that
`html.escape` produces; on text containing no entity reference it is the
identity, which is all the converter claims below depend on. -/
def htmlUnescape (s : Text) : Text := htmlUnescapeGo s.length s

/-- `_HTMLToTextParser.get_text`: join the fragments, split into lines,
strip each line, drop empty lines, rejoin with single newlines, then
decode entities once.  Python `str.splitlines` differs from splitting on
the newline character only in extra line boundaries (carriage returns
etc.) and trailing empty pieces, neither of which survives the
empty-line filter for the inputs in question. -/
def get_text (s : HtmlParserState) : Text :=
  let raw := s.parts.flatten
  let lines := (pySplit '\n' raw).map pyStrip
  let compact := List.intercalate ['\n'] (lines.filter (fun l => !l.isEmpty))
  htmlUnescape compact

/-- One tokeniser event dispatched to the handler. -/
def handleEvent (s : HtmlParserState) : HtmlEvent → HtmlParserState
  | HtmlEvent.startTag tag attrs => handle_starttag s tag attrs
  | HtmlEvent.endTag tag => handle_endtag s tag
  | HtmlEvent.data d => handle_data s d

/-- Feeding a whole event stream to a fresh `_HTMLToTextParser` and
reading the result: the `convert(html)` operation of the specification,
over the tokenised input. -/
def convertHtmlEvents (events : List HtmlEvent) : Text :=
  get_text (events.foldl handleEvent { parts := [], currentLink := none })

/-! ### Auxiliary lemmas about splitting -/

theorem pySplitOnce_eq_none (sep : Char) :
    ∀ (s : Text), sep ∉ s → pySplitOnce sep s = none
  | [], _ => rfl
  | c :: rest, h => by
    have hc : ¬c = sep := fun e => h (e ▸ List.mem_cons_self c rest)
    have hr : sep ∉ rest := fun m => h (List.mem_cons_of_mem c m)
    simp [pySplitOnce, hc, pySplitOnce_eq_none sep rest hr]

theorem pySplit_eq_single (sep : Char) :
    ∀ (s : Text), sep ∉ s → pySplit sep s = [s]
  | [], _ => rfl
  | c :: rest, h => by
    have hc : ¬c = sep := fun e => h (e ▸ List.mem_cons_self c rest)
    have hr : sep ∉ rest := fun m => h (List.mem_cons_of_mem c m)
    simp [pySplit, hc, pySplit_eq_single sep rest hr]

/-! ### Claim C9 -/

/-- Claim C9: for every string `s` and every positive chunk length `n`,
concatenating the chunks of `_split_text(s, n)` yields `s`, every chunk
except possibly the last has length exactly `n`, and splitting the empty
string yields the empty list.  Confirmed. -/
theorem C9_split_text_spec (s : Text) (n : Nat) (hn : 0 < n) :
    (split_text s n).flatten = s
    ∧ (∀ chunk ∈ (split_text s n).dropLast, chunk.length = n)
    ∧ split_text ([] : Text) n = [] := by
  obtain ⟨k, rfl⟩ : ∃ k, n = k + 1 := ⟨n - 1, by omega⟩
  refine ⟨?_, ?_, ?_⟩
  · simpa [split_text] using splitChunksGo_flatten k s.length s le_rfl
  · simpa [split_text] using splitChunksGo_dropLast_length k s.length s le_rfl
  · simp [split_text, splitChunksGo]

/-- Witness for C9 at the string `abcde` and chunk length 2. -/
theorem C9_split_text_spec_witness :
    (split_text "abcde".data 2).flatten = "abcde".data
    ∧ (∀ chunk ∈ (split_text "abcde".data 2).dropLast, chunk.length = 2)
    ∧ split_text ([] : Text) 2 = [] :=
  C9_split_text_spec "abcde".data 2 (by decide)

/-! ### Claim C8 -/

/-- Claim C8: an attachment whose lowercased content type is exactly
`image/gif` is always classified as `animation` and never as `photo`,
although `image/gif` also matches the `image/` prefix of the photo
category.  Confirmed: the animation table entry precedes the photo entry
in `MEDIA_TYPES` insertion order, and the classification takes the first
match. -/
theorem C8_gif_is_animation (a : Attachment)
    (h : pyLower a.content_type = "image/gif".data) :
    mediaTypeFor (pyLower a.content_type) = MediaType.animation
    ∧ mediaTypeFor (pyLower a.content_type) ≠ MediaType.photo
    ∧ ("image/".data).isPrefixOf (pyLower a.content_type) = true
    ∧ (a.content.isEmpty = false →
        prepare_media_files [a] MediaType.animation = [a]
        ∧ prepare_media_files [a] MediaType.photo = []) := by
  have hm : mediaTypeFor "image/gif".data = MediaType.animation := by decide
  refine ⟨?_, ?_, ?_, ?_⟩
  · rw [h]; exact hm
  · rw [h, hm]; decide
  · rw [h]; decide
  · intro hc
    constructor
    · simp [prepare_media_files, hc, h, hm]
    · simp [prepare_media_files, hc, h, hm]

/-- Witness for C8 at a concrete GIF attachment (mixed-case declared
type, as the source lowercases before classifying). -/
theorem C8_gif_is_animation_witness :
    mediaTypeFor (pyLower ("image/GIF".data)) = MediaType.animation
    ∧ mediaTypeFor (pyLower ("image/GIF".data)) ≠ MediaType.photo
    ∧ ("image/".data).isPrefixOf (pyLower ("image/GIF".data)) = true
    ∧ (Attachment.content
          { filename := "a.gif".data, content_type := "image/GIF".data,
            content := [1], generated_html := false } |>.isEmpty) = false := by
  have h := C8_gif_is_animation
    { filename := "a.gif".data, content_type := "image/GIF".data,
      content := [1], generated_html := false } (by decide)
  exact ⟨h.1, h.2.1, h.2.2.1, by decide⟩

/-! ### Claim C4 -/

/-- Counterexample for C4: for the separator-free local part `di7`, the
code produces the chat id `7` — `lstrip("id")` removed the leading `d`
and `i` — whereas the claim (only a leading literal `id` prefix removed,
everything else preserved) would predict `di7` unchanged. -/
theorem C4_counterexample :
    LocalRecipient.parse "di7".data =
      some { chat_id := "7".data, message_thread_id := none, silent := false }
    ∧ "7".data ≠ "di7".data := by decide

/-- Claim C4 as amended: for every non-empty local part containing none of
the separators `.`, `!`, `_`, resolution yields a `LocalRecipient` whose
chat id is the local part with its longest leading run of characters from
the set of the characters i and d removed (not merely one literal `id`
prefix), and whose thread id is absent. -/
theorem C4_amended (s : Text) (hne : s ≠ [])
    (hsep : ∀ c ∈ s, c ≠ '.' ∧ c ≠ '!' ∧ c ≠ '_') :
    LocalRecipient.parse s =
      some { chat_id := s.dropWhile (fun c => c = 'i' || c = 'd'),
             message_thread_id := none, silent := false } := by
  have hdot : '.' ∉ s := fun m => (hsep _ m).1 rfl
  have hbang : '!' ∉ s := fun m => (hsep _ m).2.1 rfl
  have hund : '_' ∉ s := fun m => (hsep _ m).2.2 rfl
  have h1 := pySplitOnce_eq_none '.' s hdot
  have h2 := pySplit_eq_single '!' s hbang
  have h3 := pySplit_eq_single '_' s hund
  have hse : s.isEmpty = false := by
    cases s
    · exact absurd rfl hne
    · rfl
  simp [LocalRecipient.parse, hse, h1, h2, h3, lstrip_id]

/-- Witness for the amended C4 at the local part `42`. -/
theorem C4_amended_witness :
    LocalRecipient.parse "42".data =
      some { chat_id := "42".data.dropWhile (fun c => c = 'i' || c = 'd'),
             message_thread_id := none, silent := false } :=
  C4_amended "42".data (by decide) (by decide)

/-! ### Claim C7 -/

/-- Counterexample for C7: for the local part `.s` (name part empty both
before and after alias substitution, flag suffix `.s`), resolution does
not fail — it produces a `LocalRecipient` with an empty chat id and the
silent flag set, contradicting both halves of the claim. -/
theorem C7_counterexample :
    resolve_local_recipient [] ".s".data =
      some { chat_id := [], message_thread_id := none, silent := true } := by decide

/-- Claim C7 as amended: an empty name after alias substitution yields no
`LocalRecipient` only when there is no flag suffix (so that the whole
string handed to `parse` is empty); when a flag suffix is present the
resolver instead returns a destination with an empty chat id (see the
counterexample). -/
theorem C7_amended (aliases : List (Text × Text)) (local_name : Text)
    (hdot : pySplitOnce '.' local_name = none)
    (hcanon : (aliases.lookup local_name).getD local_name = []) :
    resolve_local_recipient aliases local_name = none := by
  by_cases hempty : local_name.isEmpty
  · simp [resolve_local_recipient, hempty]
  · simp [resolve_local_recipient, hempty, hdot, hcanon, LocalRecipient.parse]

/-- Witness for the amended C7: the alias map sends `foo` to the empty
name and `foo` carries no flag suffix, so resolution fails. -/
theorem C7_amended_witness :
    resolve_local_recipient [("foo".data, [])] "foo".data = none :=
  C7_amended [("foo".data, [])] "foo".data (by decide) (by decide)

/-! ### Claim C2 -/

/-- Counterexample for C2: an action that fails with a rate-limit signal
on every attempt.  All three attempts fail, yet the procedure returns
silently (`raised = false`): the final `RetryAfter` is caught, the
procedure sleeps, the loop ends and falls through without re-raising — no
error is surfaced to the caller. -/
theorem C2_counterexample :
    execute_with_retry (fun _ => AttemptOutcome.rateLimited 5) =
      { invocations := 3, raised := false }
    ∧ AttemptOutcome.rateLimited 5 ≠ AttemptOutcome.ok := by decide

/-- Claim C2 as amended: the wrapped action is invoked at most 3 times;
when every attempt fails, all 3 attempts are used, and an error is
surfaced to the caller exactly when the final attempt fails with a plain
(non-rate-limit) transport error — a rate-limit failure on the final
attempt is swallowed and the procedure returns silently. -/
theorem C2_amended (action : Nat → AttemptOutcome) :
    (execute_with_retry action).invocations ≤ 3
    ∧ ((action 1 ≠ AttemptOutcome.ok ∧ action 2 ≠ AttemptOutcome.ok ∧
        action 3 ≠ AttemptOutcome.ok) →
        (execute_with_retry action).invocations = 3
        ∧ ((execute_with_retry action).raised = true ↔
            action 3 = AttemptOutcome.transientError)) := by
  have hr : List.range' 1 telegramRetryAttempts = [1, 2, 3] := rfl
  rcases h1 : action 1 with _ | k1 | _ <;> rcases h2 : action 2 with _ | k2 | _ <;>
    rcases h3 : action 3 with _ | k3 | _ <;>
      simp [execute_with_retry, hr, retryLoop, h1, h2, h3, telegramRetryAttempts]

/-- Witness for the amended C2: an action failing with a plain transport
error on every attempt uses all 3 attempts and surfaces the error. -/
theorem C2_amended_witness :
    (execute_with_retry (fun _ => AttemptOutcome.transientError)).invocations ≤ 3
    ∧ (execute_with_retry (fun _ => AttemptOutcome.transientError)).invocations = 3
    ∧ (execute_with_retry (fun _ => AttemptOutcome.transientError)).raised = true := by
  have h := C2_amended (fun _ => AttemptOutcome.transientError)
  have h2 := h.2 (by refine ⟨?_, ?_, ?_⟩ <;> decide)
  exact ⟨h.1, h2.1, h2.2.mpr (by decide)⟩

/-! ### Claim C5 -/

/-- The event stream the standard tokeniser produces for the input
`<style>secretstyle</style><p>Visible text</p><script>secretscript</script>`
(for `style` and `script` elements the tokeniser delivers the raw element
content through `handle_data`, exactly as for ordinary text). -/
def c5_events : List HtmlEvent :=
  [HtmlEvent.startTag "style".data [], HtmlEvent.data "secretstyle".data,
   HtmlEvent.endTag "style".data, HtmlEvent.startTag "p".data [],
   HtmlEvent.data "Visible text".data, HtmlEvent.endTag "p".data,
   HtmlEvent.startTag "script".data [], HtmlEvent.data "secretscript".data,
   HtmlEvent.endTag "script".data]

/-- Claim C5, code-bug evidence: `_HTMLToTextParser.handle_data` appends
character data unconditionally, so the character data of `style` and
`script` elements appears verbatim in the converter's output — the
repository's own test
`test_html_parser_skips_style_and_script_content` requires the opposite.
Evaluated at `c5_events`, the output contains both the style content and
the script content. -/
theorem C5_style_script_leak :
    convertHtmlEvents c5_events = "secretstyle\nVisible text\nsecretscript".data
    ∧ listContainsSub "secretstyle".data (convertHtmlEvents c5_events) = true
    ∧ listContainsSub "secretscript".data (convertHtmlEvents c5_events) = true := by decide

/-! ### Claim C1 -/

/-- A parsed email whose only body part is HTML: `extract_message_content`
produced `html_body`, the converted `plain_from_html`, and the synthetic
generated-HTML attachment, but no plain-text body. -/
def c1_parsed : ParsedEmail :=
  { subject := "S".data
    text_body := none
    html_body := some "<p>hi</p>".data
    plain_from_html := some "hi".data
    attachments := [{ filename := "message.html".data, content_type := "text/html".data,
                      content := [60, 33], generated_html := true }] }

/-- Claim C1, code-bug evidence: the `message_dict` literal in
`handle_DATA` omits the `plain_from_html` key, so for an HTML-only email
the body fallback chain of `send_to_telegram` skips the converted text
(`hi`) and delivers the escaped raw HTML instead.  The text actually sent
is `S` + newline + `&lt;p&gt;hi&lt;/p&gt;`, not the
`escape(subject) + newline + escape(plainFromHtml)` the claim requires. -/
theorem C1_plain_from_html_dropped :
    (handle_data_message_dict c1_parsed).plain_from_html = none
    ∧ c1_parsed.plain_from_html = some "hi".data
    ∧ message_body (handle_data_message_dict c1_parsed) = some "<p>hi</p>".data
    ∧ (send_to_telegram (handle_data_message_dict c1_parsed)).1 =
        [{ call := TgCall.sendMessage "S\n&lt;p&gt;hi&lt;/p&gt;".data, viaRetry := true },
         { call := TgCall.sendDocument "message.html".data none, viaRetry := false }]
    ∧ message_text (handle_data_message_dict c1_parsed) ≠
        build_message_text (some c1_parsed.subject) c1_parsed.plain_from_html := by decide

/-! ### Which calls go through the retry wrapper -/

theorem viaRetry_of_mem_send_text_messages {text : Text} {c : CallRec}
    (h : c ∈ send_text_messages text) : c.viaRetry = true := by
  simp only [send_text_messages, List.mem_map] at h
  obtain ⟨chunk, -, rfl⟩ := h
  rfl

theorem viaRetry_of_mem_send_media {t : MediaType} {f : Attachment} {cap : Option Text}
    {c : CallRec} (h : c ∈ (send_media t f cap).1) : c.viaRetry = true := by
  simp only [send_media, List.mem_singleton] at h
  subst h
  rfl

theorem viaRetry_of_mem_send_files_individually {t : MediaType} {c : CallRec} :
    ∀ {files : List Attachment}, c ∈ (send_files_individually t files).1 → c.viaRetry = true := by
  intro files
  induction files with
  | nil => intro h; simp [send_files_individually] at h
  | cons f rest ih =>
    intro h
    simp only [send_files_individually, List.mem_append] at h
    rcases h with h | h
    · exact viaRetry_of_mem_send_media h
    · exact ih h

theorem viaRetry_of_mem_send_media_group {t : MediaType} {files : List Attachment}
    {c : CallRec} (h : c ∈ (send_media_group t files).1) : c.viaRetry = true := by
  cases t <;> simp only [send_media_group, List.mem_singleton, List.not_mem_nil] at h <;>
    first
    | exact absurd h (by simp)
    | (subst h; rfl)

theorem viaRetry_of_mem_send_media_group_with_text {t : MediaType} {files : List Attachment}
    {text : Text} {c : CallRec} (h : c ∈ (send_media_group_with_text t files text).1) :
    c.viaRetry = true := by
  cases t <;>
    simp only [send_media_group_with_text, send_media_group, List.mem_singleton,
      List.mem_cons, List.not_mem_nil, or_false] at h <;>
    (subst h; rfl)

theorem viaRetry_of_mem_send_single_category {m : MessageDict} {t : MediaType}
    {files : List Attachment} {c : CallRec} (h : c ∈ (send_single_category m t files).1) :
    c.viaRetry = true := by
  match files with
  | [] => simp [send_single_category] at h
  | [f] =>
    have hf : c ∈ (send_media t f (caption_text m)).1 := by
      simpa [send_single_category] using h
    exact viaRetry_of_mem_send_media hf
  | f :: g :: rest =>
    simp only [send_single_category] at h
    by_cases haud : t = MediaType.audio ∨ t = MediaType.animation
    · rw [if_pos haud] at h
      simp only [List.mem_append] at h
      rcases h with h | h
      · rcases hcap : caption_text m with _ | cc <;> rw [hcap] at h <;>
          exact viaRetry_of_mem_send_media h
      · simp only [List.isEmpty_cons] at h
        rw [if_neg (by simp)] at h
        exact viaRetry_of_mem_send_files_individually h
    · rw [if_neg haud] at h
      exact viaRetry_of_mem_send_media_group_with_text h

theorem direct_call_of_mem_send_no_regular {m : MessageDict} {c : CallRec}
    (h : c ∈ (send_no_regular m).1) (hd : c.viaRetry = false) :
    ∃ a ∈ generated_html_attachments m, c.call = TgCall.sendDocument a.filename none := by
  simp only [send_no_regular, List.mem_append] at h
  rcases h with h | h
  · by_cases ht : (message_text m).isEmpty
    · rw [if_pos ht] at h
      simp at h
    · rw [if_neg ht] at h
      have := viaRetry_of_mem_send_text_messages h
      rw [hd] at this
      exact absurd this (by decide)
  · simp only [List.mem_map] at h
    obtain ⟨a, ha, rfl⟩ := h
    exact ⟨a, ha, rfl⟩

theorem direct_call_of_mem_send_multi_category {m : MessageDict} {c : CallRec}
    (h : c ∈ (send_multi_category m).1) (hd : c.viaRetry = false) :
    ∃ a ∈ generated_html_attachments m, c.call = TgCall.sendDocument a.filename none := by
  simp only [send_multi_category, List.append_assoc, List.mem_append] at h
  rcases h with h | h | h
  · by_cases hcond : (!needs_full_text_message m && !(message_text m).isEmpty) = true
    · rw [if_pos hcond] at h
      simp only [List.mem_singleton] at h
      subst h
      simp at hd
    · rw [if_neg hcond] at h
      simp at h
  · simp only [List.mem_flatMap] at h
    obtain ⟨t, -, h⟩ := h
    by_cases hfs : (prepare_media_files (regular_attachments m) t).isEmpty
    · rw [if_pos hfs] at h
      simp at h
    · rw [if_neg hfs] at h
      have := viaRetry_of_mem_send_media_group h
      rw [hd] at this
      exact absurd this (by decide)
  · simp only [List.mem_map] at h
    obtain ⟨a, ha, rfl⟩ := h
    exact ⟨a, ha, rfl⟩

/-! ### Claim C6 -/

/-- A message with a text body and the synthetic generated-HTML attachment
only. -/
def c6_message : MessageDict :=
  { subject := some "Hello".data
    text_body := some "World".data
    html_body := none
    plain_from_html := none
    attachments := [{ filename := "message.html".data, content_type := "text/html".data,
                      content := [60], generated_html := true }] }

/-- Counterexample for C6: delivering `c6_message` issues a
`send_document` transport call for the generated-HTML attachment by
awaiting the bot directly — not through the bounded retry procedure — so
not every remote-send operation is executed through the retry wrapper. -/
theorem C6_counterexample :
    (send_to_telegram c6_message).1 =
      [{ call := TgCall.sendMessage "Hello\nWorld".data, viaRetry := true },
       { call := TgCall.sendDocument "message.html".data none, viaRetry := false }]
    ∧ ∃ c ∈ (send_to_telegram c6_message).1, c.viaRetry = false := by
  refine ⟨by decide, ?_⟩
  exact ⟨{ call := TgCall.sendDocument "message.html".data none, viaRetry := false },
    by decide, rfl⟩

/-- Claim C6 as amended: every transport call of a delivery is executed
through the bounded retry procedure, with one exception — the
caption-less `send_document` calls that ship generated-HTML attachments,
which await the bot directly.  Equivalently: any call in the trace made
outside the retry wrapper is the document send of some generated-HTML
attachment of the message. -/
theorem C6_amended (m : MessageDict) (c : CallRec)
    (hc : c ∈ (send_to_telegram m).1) (hdirect : c.viaRetry = false) :
    ∃ a ∈ generated_html_attachments m, c.call = TgCall.sendDocument a.filename none := by
  by_cases hA : m.attachments.isEmpty
  · simp only [send_to_telegram] at hc
    rw [if_pos hA] at hc
    have := viaRetry_of_mem_send_text_messages hc
    rw [hdirect] at this
    exact absurd this (by decide)
  · by_cases hR : (regular_attachments m).isEmpty
    · simp only [send_to_telegram] at hc
      rw [if_neg hA, if_pos hR] at hc
      exact direct_call_of_mem_send_no_regular hc hdirect
    · simp only [send_to_telegram] at hc
      rw [if_neg hA, if_neg hR] at hc
      simp only [List.mem_append] at hc
      rcases hc with hc | hc
      · by_cases hcond :
          (needs_full_text_message m && !(message_text m).isEmpty) = true
        · rw [if_pos hcond] at hc
          have := viaRetry_of_mem_send_text_messages hc
          rw [hdirect] at this
          exact absurd this (by decide)
        · rw [if_neg hcond] at hc
          simp at hc
      · rcases hne : non_empty_types (regular_attachments m) with _ | ⟨⟨t, files⟩, rest⟩
        · rw [hne] at hc
          exact direct_call_of_mem_send_multi_category hc hdirect
        · rcases rest with _ | ⟨q, rest'⟩
          · rw [hne] at hc
            have := viaRetry_of_mem_send_single_category
              (by simpa [dispatch_regular] using hc)
            rw [hdirect] at this
            exact absurd this (by decide)
          · rw [hne] at hc
            exact direct_call_of_mem_send_multi_category
              (by simpa [dispatch_regular] using hc) hdirect

/-- Witness for the amended C6 at `c6_message` and its direct document
call. -/
theorem C6_amended_witness :
    ∃ a ∈ generated_html_attachments c6_message,
      CallRec.call { call := TgCall.sendDocument "message.html".data none, viaRetry := false } =
        TgCall.sendDocument a.filename none :=
  C6_amended c6_message
    { call := TgCall.sendDocument "message.html".data none, viaRetry := false }
    (by decide) rfl

/-! ### Structure of the regular-attachment branches -/

theorem regular_attachments_isEmpty_false_of_ne {m : MessageDict}
    (h : non_empty_types (regular_attachments m) ≠ []) :
    (regular_attachments m).isEmpty = false := by
  rcases hreg : regular_attachments m with _ | ⟨a, l⟩
  · rw [hreg] at h
    exact absurd (show non_empty_types [] = [] by decide) h
  · rfl

theorem attachments_isEmpty_false_of_regular {m : MessageDict}
    (h : (regular_attachments m).isEmpty = false) : m.attachments.isEmpty = false := by
  rcases hA : m.attachments with _ | ⟨a, l⟩
  · have hr : regular_attachments m = [] := by simp [regular_attachments, hA]
    rw [hr] at h
    simp at h
  · rfl

/-! ### Claim C3 -/

/-- The regular attachment of the C3 scenario. -/
def c3_att : Attachment :=
  { filename := "test.pdf".data, content_type := "application/pdf".data,
    content := [1, 2], generated_html := false }

/-- A message whose full text (subject, newline, 1030 letters) exceeds the
1024-character caption limit, carrying exactly one regular attachment of
one category. -/
def c3_message : MessageDict :=
  { subject := some "S".data
    text_body := some (List.replicate 1030 'A')
    html_body := none
    plain_from_html := none
    attachments := [c3_att] }

/-- The full message text of `c3_message`. -/
def c3_full_text : Text := 'S' :: '\n' :: List.replicate 1030 'A'

/-- The truncated, ellipsis-terminated caption of `c3_message`. -/
def c3_caption : Text := 'S' :: '\n' :: (List.replicate 1019 'A' ++ "...".data)

set_option maxRecDepth 100000 in
/-- Counterexample for C3: for a single one-file category with
over-caption-limit text, the code sends the full text first and then
sends the media item with the truncated caption attached — not, as the
claim states, with no caption. -/
theorem C3_counterexample :
    send_to_telegram c3_message =
      ([{ call := TgCall.sendMessage c3_full_text, viaRetry := true },
        { call := TgCall.sendDocument "test.pdf".data (some c3_caption), viaRetry := true }],
       true)
    ∧ some c3_caption ≠ (none : Option Text) := by decide

/-- Claim C3 as amended: when the regular attachments form exactly one
non-empty category containing exactly one file and the full text exceeds
the caption limit, the full text is sent separately first and the single
media item is then sent with the truncated ellipsis-terminated caption
attached (not with no caption). -/
theorem C3_amended (m : MessageDict) (t : MediaType) (f : Attachment)
    (hne : non_empty_types (regular_attachments m) = [(t, [f])])
    (hlong : needs_full_text_message m = true) :
    send_to_telegram m =
      (send_text_messages (message_text m) ++ (send_media t f (caption_text m)).1,
       (send_media t f (caption_text m)).2)
    ∧ caption_text m = some (truncate_text (some (message_text m)) 1024)
    ∧ caption_text m ≠ none := by
  have hR : (regular_attachments m).isEmpty = false :=
    regular_attachments_isEmpty_false_of_ne (by rw [hne]; simp)
  have hA : m.attachments.isEmpty = false := attachments_isEmpty_false_of_regular hR
  have hlen : 1024 < (message_text m).length := by
    simpa [needs_full_text_message] using hlong
  have htext : (message_text m).isEmpty = false := by
    rcases hmt : message_text m with _ | ⟨c, l⟩
    · rw [hmt] at hlen
      simp at hlen
    · rfl
  have hcap : caption_text m = some (truncate_text (some (message_text m)) 1024) := by
    have htr : (truncate_text (some (message_text m)) 1024).isEmpty = false := by
      simp only [truncate_text]
      rw [if_neg (by simp [htext]), if_pos hlen]
      simp
    simp only [caption_text]
    rw [if_pos hlong, if_neg (by simp [htr])]
  refine ⟨?_, hcap, by simp [hcap]⟩
  simp only [send_to_telegram]
  rw [if_neg (by simp [hA]), if_neg (by simp [hR]), hne,
    if_pos (by simp [hlong, htext])]
  simp [dispatch_regular, send_single_category]

set_option maxRecDepth 100000 in
/-- Witness for the amended C3 at `c3_message`. -/
theorem C3_amended_witness :
    send_to_telegram c3_message =
      (send_text_messages (message_text c3_message) ++
        (send_media MediaType.document c3_att (caption_text c3_message)).1,
       (send_media MediaType.document c3_att (caption_text c3_message)).2)
    ∧ caption_text c3_message =
        some (truncate_text (some (message_text c3_message)) 1024)
    ∧ caption_text c3_message ≠ none :=
  C3_amended c3_message MediaType.document c3_att (by decide) (by decide)

/-! ### Claim C10 -/

/-- Claim C10: in the several-categories delivery branch, an audio or
animation category produces no transport call at all for its files — the
grouped-send helper returns failure for those categories without
attempting a grouped send and without falling back to individual sends,
and `send_to_telegram` discards that failure (the delivery still reports
success, and its trace contains no audio/animation call of any kind).
Confirmed. -/
theorem C10_audio_animation_skipped (m : MessageDict) (fs : List Attachment) :
    send_media_group MediaType.audio fs = ([], false)
    ∧ send_media_group MediaType.animation fs = ([], false)
    ∧ (2 ≤ (non_empty_types (regular_attachments m)).length →
        (send_to_telegram m).2 = true
        ∧ ∀ c ∈ (send_to_telegram m).1,
            (∀ fn cap, c.call ≠ TgCall.sendAudio fn cap)
            ∧ (∀ fn cap, c.call ≠ TgCall.sendAnimation fn cap)
            ∧ (∀ fns cap, c.call ≠ TgCall.sendMediaGroup MediaType.audio fns cap
                ∧ c.call ≠ TgCall.sendMediaGroup MediaType.animation fns cap)) := by
  refine ⟨rfl, rfl, ?_⟩
  intro h2
  have hnenil : non_empty_types (regular_attachments m) ≠ [] := by
    intro hnil
    rw [hnil] at h2
    simp at h2
  have hR := regular_attachments_isEmpty_false_of_ne hnenil
  have hA := attachments_isEmpty_false_of_regular hR
  have hdisp : dispatch_regular m (non_empty_types (regular_attachments m)) =
      send_multi_category m := by
    rcases hne : non_empty_types (regular_attachments m) with _ | ⟨⟨t, files⟩, rest⟩
    · rfl
    · rcases rest with _ | ⟨q, rest'⟩
      · rw [hne] at h2
        simp at h2
      · rfl
  have htrace : send_to_telegram m =
      ((if (needs_full_text_message m && !(message_text m).isEmpty) = true then
          send_text_messages (message_text m) else []) ++ (send_multi_category m).1,
       (send_multi_category m).2) := by
    simp only [send_to_telegram]
    rw [if_neg (by simp [hA]), if_neg (by simp [hR]), hdisp]
  constructor
  · rw [htrace]
    rfl
  · intro c hc
    rw [htrace] at hc
    simp only [List.mem_append] at hc
    have hshape : (∃ txt, c.call = TgCall.sendMessage txt) ∨
        (∃ t fns, (t = MediaType.photo ∨ t = MediaType.video ∨ t = MediaType.document) ∧
          c.call = TgCall.sendMediaGroup t fns none) ∨
        (∃ fn, c.call = TgCall.sendDocument fn none) := by
      rcases hc with hc | hc
      · by_cases hcond :
          (needs_full_text_message m && !(message_text m).isEmpty) = true
        · rw [if_pos hcond] at hc
          simp only [send_text_messages, List.mem_map] at hc
          obtain ⟨chunk, -, rfl⟩ := hc
          exact Or.inl ⟨chunk, rfl⟩
        · rw [if_neg hcond] at hc
          simp at hc
      · simp only [send_multi_category, List.append_assoc, List.mem_append] at hc
        rcases hc with hc | hc | hc
        · by_cases hcond :
            (!needs_full_text_message m && !(message_text m).isEmpty) = true
          · rw [if_pos hcond] at hc
            simp only [List.mem_singleton] at hc
            subst hc
            exact Or.inl ⟨message_text m, rfl⟩
          · rw [if_neg hcond] at hc
            simp at hc
        · simp only [List.mem_flatMap] at hc
          obtain ⟨t, -, hc⟩ := hc
          by_cases hfs : (prepare_media_files (regular_attachments m) t).isEmpty
          · rw [if_pos hfs] at hc
            simp at hc
          · rw [if_neg hfs] at hc
            cases t <;>
              simp only [send_media_group, List.mem_singleton, List.not_mem_nil] at hc
            · subst hc
              exact Or.inr (Or.inl ⟨MediaType.photo, _, Or.inl rfl, rfl⟩)
            · subst hc
              exact Or.inr (Or.inl ⟨MediaType.video, _, Or.inr (Or.inl rfl), rfl⟩)
            · subst hc
              exact Or.inr (Or.inl ⟨MediaType.document, _, Or.inr (Or.inr rfl), rfl⟩)
        · simp only [List.mem_map] at hc
          obtain ⟨a, -, rfl⟩ := hc
          exact Or.inr (Or.inr ⟨a.filename, rfl⟩)
    rcases hshape with ⟨txt, hcall⟩ | ⟨t, fns, ht, hcall⟩ | ⟨fn, hcall⟩
    · exact ⟨fun fn cap => by simp [hcall], fun fn cap => by simp [hcall],
        fun fns cap => ⟨by simp [hcall], by simp [hcall]⟩⟩
    · refine ⟨fun fn cap => by simp [hcall], fun fn cap => by simp [hcall],
        fun fns2 cap => ⟨?_, ?_⟩⟩
      · rcases ht with rfl | rfl | rfl <;> simp [hcall]
      · rcases ht with rfl | rfl | rfl <;> simp [hcall]
    · exact ⟨fun fn2 cap => by simp [hcall], fun fn2 cap => by simp [hcall],
        fun fns cap => ⟨by simp [hcall], by simp [hcall]⟩⟩

/-- A message with a short text, one audio attachment and one photo
attachment: two non-empty categories. -/
def c10_message : MessageDict :=
  { subject := some "S".data
    text_body := some "b".data
    html_body := none
    plain_from_html := none
    attachments := [{ filename := "a.mp3".data, content_type := "audio/mpeg".data,
                      content := [1], generated_html := false },
                    { filename := "b.png".data, content_type := "image/png".data,
                      content := [2], generated_html := false }] }

/-- Witness for C10 at `c10_message` (audio plus photo, hence two
non-empty categories). -/
theorem C10_audio_animation_skipped_witness :
    send_media_group MediaType.audio [] = ([], false)
    ∧ (send_to_telegram c10_message).2 = true := by
  refine ⟨(C10_audio_animation_skipped c10_message []).1, ?_⟩
  exact ((C10_audio_animation_skipped c10_message []).2.2 (by decide)).1
